import Mathlib

/-!
# DaemonPulse — verification of the transport / orchestration layer

A shallow embedding of the bridge server's transport forwarder, target
registry, CLI fallback cascade, SSH line streaming, install orchestrator,
health probe and heartbeat scheduler, with theorems checking the
natural-language specification against the code.

Sources embedded (TypeScript):
* proxy routes (runLmsCli, forwardTo, forwardStream, forwardPipe,
  target registry, daemon-key masking, health probe),
* remote routes (install/stream orchestrator),
* sshClient (streamCommand line splitting),
* HeartbeatService (scout/active/reversion scheduling).
-/

namespace DaemonPulse

/-- JSON values relayed by the bridge.  The bridge never interprets the
payloads it forwards, so values are modelled atomically (objects the code
builds itself are modelled structurally at each call site instead). -/
inductive JVal where
  | null : JVal
  | bool (b : Bool) : JVal
  | num (n : Int) : JVal
  | str (s : String) : JVal
  deriving DecidableEq, Repr

/- ---------------------------------------------------------------------
C1 — lms CLI fallback cascade (proxy routes, runLmsCli)
--------------------------------------------------------------------- -/

/-- The ordered lms binary candidates: PATH first, then the Linux headless
install location under HOME, then the Windows install location under
LOCALAPPDATA.  The environment values are parameters. -/
def LMS_BINS (home localAppData : String) : List String :=
  ["lms",
   home ++ "/.lmstudio/bin/lms",
   localAppData ++ "\\LM-Studio\\bin\\lms.exe"]

/-- The candidate loop of runLmsCli: try each binary in order; on success
return the trimmed stdout; on failure record the error in lastErr and move
on; when every candidate failed, throw lastErr (falling back to a static
message only when the list was empty).  The execution of one candidate is
an oracle from the binary name to its outcome. -/
def runLmsCliLoop (exec : String → Except String String) :
    List String → Option String → Except String String
  | [], lastErr =>
      .error (lastErr.getD "lms binary not found in PATH or known install locations")
  | bin :: bins, _lastErr =>
      match exec bin with
      | .ok stdout => .ok stdout.trim
      | .error err => runLmsCliLoop exec bins (some err)

/-- runLmsCli runs the candidate loop over LMS_BINS with no error recorded
yet. -/
def runLmsCli (home localAppData : String)
    (exec : String → Except String String) : Except String String :=
  runLmsCliLoop exec (LMS_BINS home localAppData) none

/- ---------------------------------------------------------------------
C10 — GET /config/daemon-key masking
--------------------------------------------------------------------- -/

/-- The last n characters of a string (the semantics of slice(-n) on a
string of length greater than n). -/
def lastN (s : String) (n : Nat) : String :=
  String.mk (s.data.drop (s.data.length - n))

/-- The GET /config/daemon-key handler: a presence flag together with a
masked hint — four bullets plus the last four characters when the key is
longer than four characters, four bullets alone for a short nonempty key,
and the empty string for an absent key.  The full key value is never
echoed. -/
def daemonKeyGet (runtimeDaemonKey : String) : Bool × String :=
  (decide (0 < runtimeDaemonKey.length),
   if 4 < runtimeDaemonKey.length then
     "••••" ++ lastN runtimeDaemonKey 4
   else if 0 < runtimeDaemonKey.length then "••••" else "")

/- ---------------------------------------------------------------------
C6 — health probe classification (GET /health/stream, POST /health/probe)
--------------------------------------------------------------------- -/

/-- Health states reported by the probe. -/
inductive DaemonState where
  | running : DaemonState
  | stopped : DaemonState
  | stalled : DaemonState
  deriving DecidableEq, Repr

/-- One health sample: { state, latencyMs }. -/
structure HealthSample where
  state : DaemonState
  latencyMs : Nat
  deriving DecidableEq, Repr

/-- The stall threshold of the probe fetch (AbortSignal.timeout), ms. -/
def STALL_THRESHOLD_MS : Nat := 5000

/-- Outcome of the probe's fetch against the daemon: either a response
with an HTTP status after a measured latency, or a thrown failure
(connection refusal, or the abort signal firing at the stall threshold)
after a measured latency. -/
inductive ProbeOutcome where
  | response (status : Nat) (latencyMs : Nat) : ProbeOutcome
  | failure (latencyMs : Nat) : ProbeOutcome
  deriving DecidableEq, Repr

/-- JS Response.ok: status in the 2xx range. -/
def jsOk (status : Nat) : Bool := decide (200 ≤ status) && decide (status < 300)

/-- The probe handler body: a response that is ok or 401 is running, any
other response is stopped; a thrown fetch is stalled when the measured
latency has reached the stall threshold and stopped otherwise. -/
def classifyProbe : ProbeOutcome → HealthSample
  | .response status latencyMs =>
      ⟨if jsOk status || decide (status = 401) then .running else .stopped, latencyMs⟩
  | .failure latencyMs =>
      ⟨if STALL_THRESHOLD_MS ≤ latencyMs then .stalled else .stopped, latencyMs⟩

/- ---------------------------------------------------------------------
C3 — target registry (proxy routes)
--------------------------------------------------------------------- -/

/-- Target mode: local daemon or remote host (local is a keyword in Lean,
hence the Mode suffix on both constructors). -/
inductive TargetMode where
  | localMode : TargetMode
  | remoteMode : TargetMode
  deriving DecidableEq, Repr

/-- One LM Studio daemon the proxy can talk to. -/
structure DaemonTarget where
  id : String
  label : String
  url : String
  host : Option String
  key : Option String
  mode : TargetMode
  deriving DecidableEq, Repr

/-- The id of the registry's default entry, seeded from the environment at
startup. -/
def DEFAULT_ID : String := "default"

/-- The in-memory target registry: a map from id to target together with
the currently active id. -/
structure Registry where
  entries : List (String × DaemonTarget)
  activeId : String
  deriving Repr

/-- Map lookup on the registry's entries. -/
def Registry.lookup (r : Registry) (id : String) : Option DaemonTarget :=
  (r.entries.find? (fun p => p.1 = id)).map (fun p => p.2)

/-- getActiveTarget: the entry under activeId, falling back to the default
entry when the active id is not in the registry; the result is an Option
because the source's non-null cast on the default entry is sound only
under the initialisation invariant that the default entry exists. -/
def getActiveTarget (r : Registry) : Option DaemonTarget :=
  (r.lookup r.activeId).orElse (fun _ => r.lookup DEFAULT_ID)

/-- Modelled from the spec: the POST /config/targets/:id/activate route
handler is not present under src/ (only its browser-side caller in
SettingsView and the registry it mutates are).  Per the spec, activating a
known id sets it active and reports success; activating an unknown id is a
no-op on the registry that reports failure, and no error is raised. -/
def activate (r : Registry) (id : String) : Registry × Bool :=
  if (r.lookup id).isSome then ({ r with activeId := id }, true) else (r, false)

/- ---------------------------------------------------------------------
C2 / C7 — transport forwarder (forwardStream, forwardPipe)
--------------------------------------------------------------------- -/

/-- A JSON request body, modelled by its field lookup function. -/
def JBody : Type := String → Option JVal

/-- The outgoing upstream fetch request of a relay call. -/
structure UpstreamRequest where
  method : String
  body : Option JBody

/-- forwardStream's body transform: the caller's body cloned with the
stream field forced true (spread then override). -/
def forceStreamBody (body : JBody) : JBody :=
  fun k => if k = "stream" then some (.bool true) else body k

/-- The upstream request built by forwardStream: always POST, with the
stream-forced body. -/
def forwardStreamRequest (body : JBody) : UpstreamRequest :=
  ⟨"POST", some (forceStreamBody body)⟩

/-- The upstream request built by forwardPipe: the caller's method, the
caller's body untouched (omitted for GET). -/
def forwardPipeRequest (method : String) (body : JBody) : UpstreamRequest :=
  ⟨method, if method ≠ "GET" then some body else none⟩

/-- Primitive operations a handler performs on the Express response, in
order.  statusJson is res.status(code).json(...) with the error tag of the
envelope written at that site; write is one chunk written to an already
flushed SSE stream. -/
inductive ResOp where
  | statusJson (code : Nat) (tag : String) : ResOp
  | setHeader (k v : String) : ResOp
  | flushHeaders : ResOp
  | write (s : String) : ResOp
  | endRes : ResOp
  deriving DecidableEq, Repr

/-- The four SSE headers every streaming relay sets before flushing. -/
def sseHeaders : List ResOp :=
  [.setHeader "Content-Type" "text/event-stream; charset=utf-8",
   .setHeader "Cache-Control" "no-cache",
   .setHeader "Connection" "keep-alive",
   .setHeader "X-Accel-Buffering" "no"]

/-- One upstream interaction of a streaming relay call, as the handler
observes it: either the fetch itself throws, or a response arrives with a
status and possibly a body; chunks are the chunks delivered before the
read loop either completes or throws. -/
structure StreamScenario where
  fetchThrows : Bool
  errText : String
  status : Nat
  hasBody : Bool
  chunks : List String
  readThrows : Bool

/-- The response trace of forwardStream: an early JSON 502 when the fetch
throws, a JSON error with the upstream status when the response is not ok
or has no body, otherwise SSE headers, flush, the piped chunks, and either
a clean end or — when the read loop throws after flushing — one final SSE
error event then end. -/
def forwardStreamTrace (sc : StreamScenario) : List ResOp :=
  if sc.fetchThrows then [.statusJson 502 "Daemon unreachable"]
  else if !jsOk sc.status || !sc.hasBody then
    [.statusJson sc.status "Upstream error"]
  else
    sseHeaders ++ [.flushHeaders] ++ sc.chunks.map .write ++
      (if sc.readThrows then
        [.write ("data: [ERROR] " ++ sc.errText ++ "\n\n"), .endRes]
      else [.endRes])

/-- The response trace of forwardPipe: identical control flow to
forwardStream except that the non-ok branch first reads the upstream error
body into the JSON error envelope. -/
def forwardPipeTrace (sc : StreamScenario) : List ResOp :=
  if sc.fetchThrows then [.statusJson 502 "Daemon unreachable"]
  else if !jsOk sc.status || !sc.hasBody then
    [.statusJson sc.status "Upstream error"]
  else
    sseHeaders ++ [.flushHeaders] ++ sc.chunks.map .write ++
      (if sc.readThrows then
        [.write ("data: [ERROR] " ++ sc.errText ++ "\n\n"), .endRes]
      else [.endRes])

/-- Whether a response operation is a JSON reply. -/
def ResOp.isStatusJson : ResOp → Bool
  | .statusJson _ _ => true
  | _ => false

/-- No JSON reply is issued at or after the point where headers are
flushed. -/
def noJsonAfterFlush : List ResOp → Bool
  | [] => true
  | .flushHeaders :: rest => rest.all (fun op => !op.isStatusJson)
  | _ :: rest => noJsonAfterFlush rest

/- ---------------------------------------------------------------------
C9 — buffered relay (forwardTo) and CLI-backed routes (runtime/survey)
--------------------------------------------------------------------- -/

/-- Outcome of parsing a text as JSON: the parsed value, or the parse
error text thrown. -/
inductive JParse where
  | ok (v : JVal) : JParse
  | fail (err : String) : JParse
  deriving DecidableEq, Repr

/-- Outcome of the buffered relay's upstream fetch: thrown, or a response
with a status whose body parses (or fails to parse) as JSON. -/
inductive FetchOutcome where
  | thrown (err : String) : FetchOutcome
  | response (status : Nat) (body : JParse) : FetchOutcome
  deriving DecidableEq, Repr

/-- The reply of the buffered relay: the upstream status and JSON body
passed through verbatim, or the 502 Daemon-unreachable envelope. -/
inductive BufferedOut where
  | passthrough (status : Nat) (body : JVal) : BufferedOut
  | unreachable502 (detail : String) : BufferedOut
  deriving DecidableEq, Repr

/-- forwardTo: reply with the upstream status and parsed body; any thrown
step — the fetch itself or upstream.json() on a malformed body — lands in
the catch and yields the 502 envelope. -/
def forwardToRun : FetchOutcome → BufferedOut
  | .thrown err => .unreachable502 err
  | .response status (.ok v) => .passthrough status v
  | .response _ (.fail err) => .unreachable502 err

/-- The HTTP status the caller of the buffered relay sees. -/
def BufferedOut.httpStatus : BufferedOut → Nat
  | .passthrough status _ => status
  | .unreachable502 _ => 502

/-- Whether a buffered-relay reply is a raw-text envelope (it never is:
the type has no such form; the discriminator documents that). -/
def BufferedOut.isRawEnvelope : BufferedOut → Bool
  | _ => false

/-- Outcome of a runLmsCli invocation inside a CLI-backed route, together
with the parse attempt on its stdout. -/
inductive CliOutcome where
  | fail (err : String) : CliOutcome
  | ok (stdout : String) (parse : JParse) : CliOutcome
  deriving DecidableEq, Repr

/-- The reply of GET /runtime/survey (and GET /models/running, which is
identical in shape): parsed JSON on success, the raw-text envelope when
stdout is not JSON, and a 502 envelope when the CLI itself failed. -/
inductive CliRouteOut where
  | parsed (v : JVal) : CliRouteOut
  | rawEnvelope (raw : String) : CliRouteOut
  | cliError502 (detail : String) : CliRouteOut
  deriving DecidableEq, Repr

/-- The runtime/survey handler: JSON.parse(stdout) replied on success,
{ raw: stdout } on parse failure, 502 on CLI failure. -/
def surveyRun : CliOutcome → CliRouteOut
  | .fail err => .cliError502 err
  | .ok _ (.ok v) => .parsed v
  | .ok stdout (.fail _) => .rawEnvelope stdout

/- ---------------------------------------------------------------------
C8 — heartbeat scheduler (HeartbeatService)
--------------------------------------------------------------------- -/

/-- Heartbeat scheduling modes. -/
inductive HeartbeatMode where
  | IDLE : HeartbeatMode
  | SCOUTING : HeartbeatMode
  | ACTIVE : HeartbeatMode
  deriving DecidableEq, Repr

/-- The reversion delay after a user action, ms. -/
def REVERSION_DELAY_MS : Nat := 15000

/-- The mutable state of the heartbeat service that the scout/active
scheduling touches: the mode and the pending reversion timer, identified
by its scheduled fire time (none when no timer is pending). -/
structure HBState where
  mode : HeartbeatMode
  reversionTimer : Option Nat
  deriving DecidableEq, Repr

/-- Side effects the service requests. -/
inductive HBAction where
  | probe : HBAction
  deriving DecidableEq, Repr

/-- userActionDetected at time now: clearReversion() drops any pending
timer, the mode becomes ACTIVE, one immediate probe is fired, and a fresh
reversion timer is armed for now + REVERSION_DELAY_MS. -/
def userActionDetected (_s : HBState) (now : Nat) : HBState × List HBAction :=
  (⟨.ACTIVE, some (now + REVERSION_DELAY_MS)⟩, [.probe])

/-- The scheduler's tick at time t: the reversion callback runs only if
the timer armed for t is still pending (a cancelled or replaced timer
never fires), and returns the mode to SCOUTING, consuming the timer. -/
def reversionCheck (s : HBState) (t : Nat) : HBState :=
  if s.reversionTimer = some t then ⟨.SCOUTING, none⟩ else s

/- ---------------------------------------------------------------------
C5 — install orchestrator (POST /remote/install/stream)
--------------------------------------------------------------------- -/

/-- Status carried by a step event. -/
inductive StepStatus where
  | active : StepStatus
  | done : StepStatus
  | error : StepStatus
  deriving DecidableEq, Repr

/-- Kinds of line events. -/
inductive LineKind where
  | info : LineKind
  | warn : LineKind
  | error : LineKind
  deriving DecidableEq, Repr

/-- Remote platform classification. -/
inductive RemotePlatform where
  | linux : RemotePlatform
  | macOS : RemotePlatform
  | windows : RemotePlatform
  | unknown : RemotePlatform
  deriving DecidableEq, Repr

/-- Events the install orchestrator writes to its SSE stream: step events
carrying { step, totalSteps, label, status }, line events carrying
{ type, line }, and the opaque stdout/stderr/exit block streamCommand
writes during the installer run. -/
inductive InstEv where
  | step (idx : Nat) (label : String) (status : StepStatus) : InstEv
  | line (kind : LineKind) (text : String) : InstEv
  | streamed : InstEv
  deriving DecidableEq, Repr

/-- One run of the orchestration, as the handler observes its remote
calls: validity of the body, the chosen install method, whether each
awaited SSH call succeeds or throws, and the values that drive the
branches (npm presence, installer exit code, verify output matching
"lms not found", daemon-start exit code). -/
structure InstallScenario where
  hasHostUser : Bool
  npmMethod : Bool
  connectOk : Bool
  detectThrows : Bool
  platform : RemotePlatform
  npmCheckThrows : Bool
  npmFound : Bool
  installThrows : Bool
  installExit : Int
  verifyThrows : Bool
  lmsNotFound : Bool
  daemonThrows : Bool
  daemonExit : Int
  deriving Repr

/-- The SSE event trace of the install orchestrator, following the
handler's control flow: step 1 SSH connection, step 2 platform detection,
step 3 installer preflight, step 4 run installer (an error there does not
abort — verification still runs), step 5 verify lms CLI (an error there
is terminal), step 6 daemon bootstrap.  A thrown awaited call lands in
the outer catch, which emits an error line and ends the stream. -/
def installTrace (sc : InstallScenario) : List InstEv :=
  if !sc.hasHostUser then [.line .error "host and username are required"]
  else
    [.step 1 "SSH connection" .active] ++
    (if !sc.connectOk then [.step 1 "SSH connection" .error]
     else
      [.step 1 "SSH connection" .done, .step 2 "Remote platform detection" .active] ++
      (if sc.detectThrows then [.line .error "SSH error"]
       else
        [.step 2 "Remote platform detection" .done,
         .step 3 "Installer preflight" .active] ++
        (if sc.npmMethod && sc.npmCheckThrows then [.line .error "SSH error"]
         else if sc.npmMethod && !sc.npmFound then
          [.step 3 "Installer preflight" .error]
         else
          [.step 3 "Installer preflight" .done,
           .step 4 "Run installer" .active,
           .line .info "starting install"] ++
          (if sc.installThrows then [.line .error "SSH error"]
           else
            [.streamed] ++
            (if sc.installExit = 0 then [.step 4 "Run installer" .done]
             else [.step 4 "Run installer" .error]) ++
            [.step 5 "Verify lms CLI" .active] ++
            (if sc.verifyThrows then [.line .error "SSH error"]
             else
              [.line .info "Install check"] ++
              (if sc.lmsNotFound then [.step 5 "Verify lms CLI" .error]
               else
                [.step 5 "Verify lms CLI" .done,
                 .step 6 "Daemon bootstrap" .active] ++
                (if sc.daemonThrows then [.line .error "SSH error"]
                 else if sc.daemonExit = 0 then
                  [.line .info "Daemon start command succeeded.",
                   .step 6 "Daemon bootstrap" .done]
                 else
                  [.line .warn "Daemon start command exited nonzero",
                   .step 6 "Daemon bootstrap" .error])))))))

/-- Project the step events of a trace to (index, status) pairs. -/
def stepsOf : List InstEv → List (Nat × StepStatus)
  | [] => []
  | .step idx _ status :: rest => (idx, status) :: stepsOf rest
  | _ :: rest => stepsOf rest

/-- Rank of a step status in the forward order pending → active →
done|error (pending is never emitted). -/
def StepStatus.rank : StepStatus → Nat
  | .active => 1
  | .done => 2
  | .error => 2

/-- A list of ranks that only moves strictly forward. -/
def strictlyForward : List Nat → Bool
  | [] => true
  | [_] => true
  | a :: b :: rest => decide (a < b) && strictlyForward (b :: rest)

/-- Per-step monotonicity over steps 1..total: the statuses emitted for
each step index, in order, only move forward. -/
def stepMonotone (total : Nat) (l : List (Nat × StepStatus)) : Bool :=
  (List.range' 1 total).all fun k =>
    strictlyForward ((l.filter (fun p => p.1 = k)).map (fun p => p.2.rank))

/-- Every time step i is emitted active, each j < i has already been
emitted with status done. -/
def activePrevDone : List (Nat × StepStatus) → List (Nat × StepStatus) → Bool
  | _, [] => true
  | seen, (i, st) :: rest =>
      (if st = .active then
        (List.range' 1 (i - 1)).all fun j => seen.contains (j, .done)
      else true)
      && activePrevDone ((i, st) :: seen) rest

/-- Every time step i is emitted active, each j < i has already been
emitted with a terminal status (done or error). -/
def activePrevTerminal : List (Nat × StepStatus) → List (Nat × StepStatus) → Bool
  | _, [] => true
  | seen, (i, st) :: rest =>
      (if st = .active then
        (List.range' 1 (i - 1)).all fun j =>
          seen.contains (j, .done) || seen.contains (j, .error)
      else true)
      && activePrevTerminal ((i, st) :: seen) rest

/- ---------------------------------------------------------------------
C4 — SSH stream() line splitting (sshClient streamCommand)
--------------------------------------------------------------------- -/

/-- Split a byte sequence on newline separators; always returns at least
one (possibly empty) part, exactly like String.split on a single
separator in JS. -/
def splitNl : List Char → List (List Char)
  | [] => [[]]
  | c :: cs =>
      if c = '\n' then [] :: splitNl cs
      else
        match splitNl cs with
        | [] => [[c]]
        | p :: ps => (c :: p) :: ps

/-- Join parts with a newline between consecutive parts (no trailing
newline), the inverse direction of splitNl. -/
def joinNl : List (List Char) → List Char
  | [] => []
  | [p] => p
  | p :: ps => p ++ '\n' :: joinNl ps

/-- The pipeStream loop of streamCommand: the buffer accumulates the
chunk, is split on newlines, the last part is kept as the new buffer, and
every nonempty complete line is emitted; on stream end a nonempty buffer
is flushed as one final line. -/
def runPipe (buf : List Char) : List (List Char) → List (List Char)
  | [] => if buf = [] then [] else [buf]
  | chunk :: chunks =>
      let parts := splitNl (buf ++ chunk)
      parts.dropLast.filter (fun l => l ≠ []) ++ runPipe (parts.getLastD []) chunks

/-- Decompose a byte sequence into its complete newline-terminated lines
and its trailing partial line (proof-side view of splitNl: the complete
lines are exactly splitNl minus its final part). -/
def splitParts : List Char → List (List Char) × List Char
  | [] => ([], [])
  | c :: cs =>
      let r := splitParts cs
      if c = '\n' then ([] :: r.1, r.2)
      else
        match r.1 with
        | [] => ([], c :: r.2)
        | l :: rest => ((c :: l) :: rest, r.2)

/- =====================================================================
Theorems
===================================================================== -/

/-- Helper: during the candidate loop, once every candidate fails the
result is the error of the last candidate, whatever error was recorded
before the loop segment started. -/
theorem runLmsCliLoop_all_fail (exec : String → Except String String)
    (bins : List String) (hne : bins ≠ [])
    (hfail : ∀ b ∈ bins, ∃ m, exec b = .error m)
    (e : String) (hlast : exec (bins.getLast hne) = .error e) :
    ∀ acc, runLmsCliLoop exec bins acc = .error e := by
  induction bins with
  | nil => exact absurd rfl hne
  | cons b bs ih =>
    intro acc
    obtain ⟨m, hm⟩ := hfail b (List.mem_cons_self b bs)
    by_cases hbs : bs = []
    · subst hbs
      rw [List.getLast_singleton] at hlast
      rw [hm] at hlast
      simp only [Except.error.injEq] at hlast
      simp [runLmsCliLoop, hm, hlast]
    · have hlast2 : exec (bs.getLast hbs) = .error e := by
        rw [← List.getLast_cons hbs]; exact hlast
      have ihh := ih hbs (fun x hx => hfail x (List.mem_cons_of_mem b hx)) hlast2
      simp only [runLmsCliLoop]
      rw [hm]
      exact ihh (some m)

/-- C1 (counterexample): with every candidate failing and distinct error
messages per candidate, runLmsCli surfaces the error of the last
candidate, not the first — refuting the claim that the first recorded
failure is returned. -/
theorem runLmsCli_first_error_cex :
    runLmsCli "/home/u" "C:\\Users\\u\\AppData\\Local"
        (fun b => .error ("spawn " ++ b ++ " ENOENT")) =
      .error "spawn C:\\Users\\u\\AppData\\Local\\LM-Studio\\bin\\lms.exe ENOENT" ∧
    runLmsCli "/home/u" "C:\\Users\\u\\AppData\\Local"
        (fun b => .error ("spawn " ++ b ++ " ENOENT")) ≠
      .error "spawn lms ENOENT" := by
  constructor
  · rfl
  · show Except.error (α := String)
        "spawn C:\\Users\\u\\AppData\\Local\\LM-Studio\\bin\\lms.exe ENOENT" ≠
      Except.error "spawn lms ENOENT"
    intro h
    injection h with h2
    simp at h2

/-- C1 (amended): when every CLI candidate invocation fails, the error
surfaced to the caller is the LAST recorded candidate failure (the error
of the final candidate tried), not the first. -/
theorem runLmsCli_all_fail_surfaces_last (home localAppData : String)
    (exec : String → Except String String)
    (hfail : ∀ b ∈ LMS_BINS home localAppData, ∃ m, exec b = .error m)
    (e : String)
    (hlast : exec (localAppData ++ "\\LM-Studio\\bin\\lms.exe") = .error e) :
    runLmsCli home localAppData exec = .error e := by
  have hne : LMS_BINS home localAppData ≠ [] := by simp [LMS_BINS]
  have hl : (LMS_BINS home localAppData).getLast hne =
      localAppData ++ "\\LM-Studio\\bin\\lms.exe" := rfl
  exact runLmsCliLoop_all_fail exec _ hne hfail e (by rw [hl]; exact hlast) none

/-- C1 (witness): the amended theorem applied to a concrete all-fail
oracle. -/
theorem runLmsCli_all_fail_surfaces_last_witness :
    runLmsCli "/h" "C:" (fun _ => .error "not installed") =
      .error "not installed" :=
  runLmsCli_all_fail_surfaces_last "/h" "C:" (fun _ => .error "not installed")
    (fun _ _ => ⟨"not installed", rfl⟩) "not installed" rfl

/-- C3: activating an unknown target id leaves the registry (and its
active id) unchanged and returns failure; with the default entry present,
get_active() always returns some target; and when the active id is not in
the registry, the default entry is returned. -/
theorem registry_activate_unknown (r : Registry) (id : String)
    (d : DaemonTarget)
    (hunknown : r.lookup id = none)
    (hdefault : r.lookup DEFAULT_ID = some d) :
    activate r id = (r, false) ∧
    (∃ t, getActiveTarget r = some t) ∧
    (r.lookup r.activeId = none → getActiveTarget r = r.lookup DEFAULT_ID) := by
  refine ⟨?_, ?_, ?_⟩
  · simp [activate, hunknown]
  · cases hact : r.lookup r.activeId with
    | none => exact ⟨d, by simp [getActiveTarget, hact, hdefault, Option.orElse]⟩
    | some t => exact ⟨t, by simp [getActiveTarget, hact, Option.orElse]⟩
  · intro h
    simp [getActiveTarget, h, Option.orElse]

/-- C3 (witness): the theorem applied to a registry holding only the
default entry, activating the unknown id "ghost". -/
theorem registry_activate_unknown_witness :
    activate ⟨[(DEFAULT_ID, ⟨DEFAULT_ID, "Local", "http://localhost:1234",
        none, none, .localMode⟩)], DEFAULT_ID⟩ "ghost" =
      (⟨[(DEFAULT_ID, ⟨DEFAULT_ID, "Local", "http://localhost:1234",
        none, none, .localMode⟩)], DEFAULT_ID⟩, false) ∧
    (∃ t, getActiveTarget ⟨[(DEFAULT_ID, ⟨DEFAULT_ID, "Local",
        "http://localhost:1234", none, none, .localMode⟩)], DEFAULT_ID⟩ =
      some t) := by
  have h := registry_activate_unknown
    ⟨[(DEFAULT_ID, ⟨DEFAULT_ID, "Local", "http://localhost:1234",
        none, none, .localMode⟩)], DEFAULT_ID⟩ "ghost"
    ⟨DEFAULT_ID, "Local", "http://localhost:1234", none, none, .localMode⟩
    (by simp [Registry.lookup, DEFAULT_ID])
    (by simp [Registry.lookup, DEFAULT_ID])
  exact ⟨h.1, h.2.1⟩

/-- C6: a health probe emits running on a 2xx or 401 response, stopped on
any other response status, stopped on a failure (connection refusal)
before the stall threshold, and stalled — with latencyMs at least 5000 —
on a failure at or past the 5 s stall threshold (the abort signal firing
because no response arrived in time). -/
theorem health_probe_classification (status latencyMs : Nat) :
    ((200 ≤ status ∧ status < 300) ∨ status = 401 →
      classifyProbe (.response status latencyMs) = ⟨.running, latencyMs⟩) ∧
    (¬((200 ≤ status ∧ status < 300) ∨ status = 401) →
      classifyProbe (.response status latencyMs) = ⟨.stopped, latencyMs⟩) ∧
    (latencyMs < STALL_THRESHOLD_MS →
      classifyProbe (.failure latencyMs) = ⟨.stopped, latencyMs⟩) ∧
    (STALL_THRESHOLD_MS ≤ latencyMs →
      classifyProbe (.failure latencyMs) = ⟨.stalled, latencyMs⟩ ∧
      5000 ≤ (classifyProbe (.failure latencyMs)).latencyMs) := by
  refine ⟨?_, ?_, ?_, ?_⟩
  · intro h
    have hok : (jsOk status || decide (status = 401)) = true := by
      simp only [jsOk, Bool.or_eq_true, Bool.and_eq_true, decide_eq_true_eq]
      omega
    simp [classifyProbe, hok]
  · intro h
    have hok : (jsOk status || decide (status = 401)) = false := by
      simp only [jsOk, Bool.or_eq_false_iff, Bool.and_eq_false_iff,
        decide_eq_false_iff_not]
      push_neg at h
      omega
    simp [classifyProbe, hok]
  · intro h
    simp only [STALL_THRESHOLD_MS] at h
    simp [classifyProbe, STALL_THRESHOLD_MS, Nat.not_le.mpr h]
  · intro h
    simp only [STALL_THRESHOLD_MS] at h
    simp [classifyProbe, STALL_THRESHOLD_MS, h]

/-- C6 (witness): a 401 response is running; a 5000 ms failure is stalled
with latency at least 5000. -/
theorem health_probe_classification_witness :
    classifyProbe (.response 401 120) = ⟨.running, 120⟩ ∧
    classifyProbe (.failure 5000) = ⟨.stalled, 5000⟩ := by
  refine ⟨(health_probe_classification 401 120).1 (Or.inr rfl), ?_⟩
  exact ((health_probe_classification 401 5000).2.2.2 (by decide)).1

/-- C7: the forced-stream relay always sends POST upstream, its outgoing
body is the caller's body with the stream field forced true (overriding
any caller value or absence), and every other field is unchanged. -/
theorem forced_stream_request (body : JBody) (k : String)
    (hk : k ≠ "stream") :
    (forwardStreamRequest body).method = "POST" ∧
    (forwardStreamRequest body).body = some (forceStreamBody body) ∧
    forceStreamBody body "stream" = some (.bool true) ∧
    forceStreamBody body k = body k := by
  refine ⟨rfl, rfl, by simp [forceStreamBody], by simp [forceStreamBody, hk]⟩

/-- C7 (witness): the theorem applied to a caller body that sets stream
to false, at the unrelated field "model". -/
theorem forced_stream_request_witness :
    forceStreamBody
        (fun k => if k = "stream" then some (.bool false)
                  else if k = "model" then some (.str "qwen") else none)
        "stream" = some (.bool true) ∧
    forceStreamBody
        (fun k => if k = "stream" then some (.bool false)
                  else if k = "model" then some (.str "qwen") else none)
        "model" = some (.str "qwen") := by
  have h := forced_stream_request
    (fun k => if k = "stream" then some (.bool false)
              else if k = "model" then some (.str "qwen") else none)
    "model" (by decide)
  exact ⟨h.2.2.1, by rw [h.2.2.2]; simp⟩

/-- C8: userActionDetected cancels any pending reversion timer (the old
timer's tick no longer fires), emits exactly one immediate probe, sets
the mode to ACTIVE, and arms a reversion timer 15 s out whose tick — when
no further user action has replaced it — returns the mode to SCOUTING. -/
theorem heartbeat_user_action (s : HBState) (now told : Nat)
    (_htimer : s.reversionTimer = some told)
    (hne : told ≠ now + REVERSION_DELAY_MS) :
    (userActionDetected s now).1.mode = .ACTIVE ∧
    (userActionDetected s now).2 = [.probe] ∧
    (userActionDetected s now).1.reversionTimer =
      some (now + REVERSION_DELAY_MS) ∧
    reversionCheck (userActionDetected s now).1 told =
      (userActionDetected s now).1 ∧
    reversionCheck (userActionDetected s now).1 (now + REVERSION_DELAY_MS) =
      ⟨.SCOUTING, none⟩ := by
  refine ⟨rfl, rfl, rfl, ?_, ?_⟩
  · simp only [userActionDetected, reversionCheck]
    rw [if_neg]
    simp only [Option.some.injEq]
    omega
  · simp [userActionDetected, reversionCheck]

/-- C8 (witness): a state in SCOUTING with a stale timer armed for t=3000
receiving a user action at t=1000. -/
theorem heartbeat_user_action_witness :
    (userActionDetected ⟨.SCOUTING, some 3000⟩ 1000).1.mode = .ACTIVE ∧
    reversionCheck (userActionDetected ⟨.SCOUTING, some 3000⟩ 1000).1 3000 =
      (userActionDetected ⟨.SCOUTING, some 3000⟩ 1000).1 ∧
    reversionCheck (userActionDetected ⟨.SCOUTING, some 3000⟩ 1000).1 16000 =
      ⟨.SCOUTING, none⟩ := by
  have h := heartbeat_user_action ⟨.SCOUTING, some 3000⟩ 1000 3000 rfl
    (by decide)
  exact ⟨h.1, h.2.2.2.1, h.2.2.2.2⟩

/-- C9 (counterexample): a buffered-relay call whose upstream replies 200
with a non-JSON body does fail the whole call — the caller receives the
502 Daemon-unreachable envelope, not a raw-text envelope. -/
theorem buffered_relay_nonjson_cex :
    forwardToRun (.response 200 (.fail "Unexpected token")) =
      .unreachable502 "Unexpected token" ∧
    (forwardToRun (.response 200 (.fail "Unexpected token"))).httpStatus =
      502 ∧
    (forwardToRun (.response 200 (.fail "Unexpected token"))).isRawEnvelope =
      false :=
  ⟨rfl, rfl, rfl⟩

/-- C9 (amended): CLI-backed routes degrade a non-JSON stdout to the
{ raw } envelope instead of failing; the buffered relay, by contrast,
maps a malformed upstream JSON body to the 502 {error, detail} envelope
(upstream.json() throws into the catch). -/
theorem protocol_error_handling (stdout err : String) (status : Nat)
    (v : JVal) :
    surveyRun (.ok stdout (.fail err)) = .rawEnvelope stdout ∧
    surveyRun (.ok stdout (.ok v)) = .parsed v ∧
    forwardToRun (.response status (.fail err)) = .unreachable502 err ∧
    (forwardToRun (.response status (.fail err))).httpStatus = 502 :=
  ⟨rfl, rfl, rfl, rfl⟩

/-- C10: the GET /config/daemon-key response is a function only of the
key's length and its last four characters — two keys agreeing on those
produce identical responses — the presence flag is exactly nonemptiness,
and the hint of a key longer than four characters is four mask bullets
followed by its last four characters. -/
theorem daemon_key_masked (k k2 : String)
    (hlen : k.length = k2.length) (hlast : lastN k 4 = lastN k2 4) :
    daemonKeyGet k = daemonKeyGet k2 ∧
    (daemonKeyGet k).1 = decide (0 < k.length) ∧
    (4 < k.length → (daemonKeyGet k).2 = "••••" ++ lastN k 4) := by
  refine ⟨?_, rfl, fun h => by simp [daemonKeyGet, h]⟩
  simp only [daemonKeyGet, hlen, hlast]

/-- C10 (witness): two keys of length 11 sharing the suffix "abcd" but
differing everywhere else give the same response. -/
theorem daemon_key_masked_witness :
    daemonKeyGet "secret-abcd" = daemonKeyGet "SECRET-abcd" ∧
    (daemonKeyGet "secret-abcd").2 = "••••" ++ lastN "secret-abcd" 4 := by
  have h := daemon_key_masked "secret-abcd" "SECRET-abcd" rfl rfl
  exact ⟨h.1, h.2.2 (by decide)⟩

/-- Helper: chunk writes are never JSON replies. -/
theorem writes_not_statusJson (chunks : List String) :
    (chunks.map ResOp.write).all (fun op => !op.isStatusJson) = true := by
  induction chunks with
  | nil => rfl
  | cons c cs ih => simp [ResOp.isStatusJson, ih]

/-- C2: in every forced-stream and raw-pipe relay execution, no JSON
reply is issued once headers are flushed (SSE framing has started); when
the read loop errors after the flush, the trace ends with exactly one SSE
error event followed by end — never a JSON error body. -/
theorem sse_error_discipline (sc : StreamScenario) :
    noJsonAfterFlush (forwardStreamTrace sc) = true ∧
    noJsonAfterFlush (forwardPipeTrace sc) = true ∧
    (sc.fetchThrows = false → (!jsOk sc.status || !sc.hasBody) = false →
      sc.readThrows = true →
      forwardStreamTrace sc =
        sseHeaders ++ [.flushHeaders] ++ sc.chunks.map .write ++
          [.write ("data: [ERROR] " ++ sc.errText ++ "\n\n"), .endRes] ∧
      forwardPipeTrace sc =
        sseHeaders ++ [.flushHeaders] ++ sc.chunks.map .write ++
          [.write ("data: [ERROR] " ++ sc.errText ++ "\n\n"), .endRes]) := by
  refine ⟨?_, ?_, ?_⟩
  · by_cases h1 : sc.fetchThrows
    · simp [forwardStreamTrace, h1, noJsonAfterFlush]
    · by_cases h2 : (!jsOk sc.status || !sc.hasBody) = true
      · simp [forwardStreamTrace, h1, h2, noJsonAfterFlush]
      · by_cases h3 : sc.readThrows <;>
          simp [forwardStreamTrace, h1, h2, h3, noJsonAfterFlush, sseHeaders,
            List.all_append, writes_not_statusJson, ResOp.isStatusJson]
  · by_cases h1 : sc.fetchThrows
    · simp [forwardPipeTrace, h1, noJsonAfterFlush]
    · by_cases h2 : (!jsOk sc.status || !sc.hasBody) = true
      · simp [forwardPipeTrace, h1, h2, noJsonAfterFlush]
      · by_cases h3 : sc.readThrows <;>
          simp [forwardPipeTrace, h1, h2, h3, noJsonAfterFlush, sseHeaders,
            List.all_append, writes_not_statusJson, ResOp.isStatusJson]
  · intro h1 h2 h3
    constructor
    · simp [forwardStreamTrace, h1, h2, h3]
    · simp [forwardPipeTrace, h1, h2, h3]

/-- C2 (witness): a flushed stream (200, body present) whose read loop
then throws receives the final SSE error event and end, with no JSON
reply after the flush. -/
theorem sse_error_discipline_witness :
    noJsonAfterFlush (forwardStreamTrace ⟨false, "boom", 200, true,
      ["data: x\n\n"], true⟩) = true ∧
    forwardStreamTrace ⟨false, "boom", 200, true, ["data: x\n\n"], true⟩ =
      sseHeaders ++ [.flushHeaders] ++ [.write "data: x\n\n"] ++
        [.write "data: [ERROR] boom\n\n", .endRes] := by
  have h := sse_error_discipline ⟨false, "boom", 200, true,
    ["data: x\n\n"], true⟩
  refine ⟨h.1, ?_⟩
  have h2 := (h.2.2 rfl (by decide) rfl).1
  simpa using h2

/-- C5 (counterexample): a run whose installer exits nonzero (step 4
ends in error) still proceeds to verification, so step 5 is emitted
active while step 4 never reached done — refuting that every earlier
step is done when a later step becomes active. -/
theorem install_steps_cex :
    activePrevDone [] (stepsOf (installTrace
      ⟨true, false, true, false, .linux, false, true, false, 1,
       false, false, false, 0⟩)) = false ∧
    stepMonotone 6 (stepsOf (installTrace
      ⟨true, false, true, false, .linux, false, true, false, 1,
       false, false, false, 0⟩)) = true := by
  constructor <;> decide

set_option maxHeartbeats 2000000 in
/-- C5 (amended): in every install orchestration run, each step's status
evolves only forward (active before its single terminal done or error,
never reversed), and whenever step i is emitted as active, every step
j < i has already reached a terminal status — done, or error for the
installer step, whose failure does not abort the sequence. -/
theorem install_steps_monotone (sc : InstallScenario) :
    stepMonotone 6 (stepsOf (installTrace sc)) = true ∧
    activePrevTerminal [] (stepsOf (installTrace sc)) = true := by
  obtain ⟨h1, h2, h3, h4, plat, h5, h6, h7, ie, h8, h9, h10, de⟩ := sc
  by_cases hie : ie = 0 <;> by_cases hde : de = 0 <;>
    cases h1 <;> cases h2 <;> cases h3 <;> cases h4 <;> cases h5 <;>
    cases h6 <;> cases h7 <;> cases h8 <;> cases h9 <;> cases h10 <;>
    simp [installTrace, hie, hde] <;> decide

/-- Helper: splitNl always yields at least one part. -/
theorem splitNl_ne_nil (l : List Char) : splitNl l ≠ [] := by
  induction l with
  | nil => simp [splitNl]
  | cons c cs ih =>
    simp only [splitNl]
    split
    · simp
    · cases h : splitNl cs with
      | nil => simp
      | cons p ps => simp

/-- Helper: a newline-free sequence is a single part. -/
theorem splitNl_eq_single (l : List Char) (h : '\n' ∉ l) :
    splitNl l = [l] := by
  induction l with
  | nil => rfl
  | cons c cs ih =>
    have hc : c ≠ '\n' := fun hh => h (hh ▸ List.mem_cons_self c cs)
    have hcs : '\n' ∉ cs := fun hh => h (List.mem_cons_of_mem c hh)
    simp only [splitNl, if_neg hc, ih hcs]

/-- Helper: splitNl is splitParts with the trailing partial line
appended. -/
theorem splitNl_eq_parts (l : List Char) :
    splitNl l = (splitParts l).1 ++ [(splitParts l).2] := by
  induction l with
  | nil => rfl
  | cons c cs ih =>
    by_cases hc : c = '\n'
    · subst hc
      simp [splitNl, splitParts, ih]
    · simp only [splitNl, if_neg hc, splitParts]
      cases hP : (splitParts cs).1 with
      | nil =>
        rw [hP] at ih
        simp only [List.nil_append] at ih
        simp [ih, if_neg hc]
      | cons l1 rest =>
        rw [hP] at ih
        simp [ih, if_neg hc]

/-- Helper: the trailing partial line never holds a newline. -/
theorem splitParts_no_nl_last (l : List Char) : '\n' ∉ (splitParts l).2 := by
  induction l with
  | nil => simp [splitParts]
  | cons c cs ih =>
    by_cases hc : c = '\n'
    · subst hc; simpa [splitParts] using ih
    · simp only [splitParts, if_neg hc]
      cases hP : (splitParts cs).1 with
      | nil =>
        simp only []
        intro hmem
        rcases List.mem_cons.mp hmem with h | h
        · exact hc h.symm
        · exact ih h
      | cons l1 rest => simpa using ih

/-- Helper: without complete lines, the trailing part is the whole
input. -/
theorem splitParts_nil_lines (l : List Char)
    (h : (splitParts l).1 = []) : (splitParts l).2 = l := by
  induction l with
  | nil => rfl
  | cons c cs ih =>
    by_cases hc : c = '\n'
    · subst hc; simp [splitParts] at h
    · simp only [splitParts, if_neg hc] at h ⊢
      cases hP : (splitParts cs).1 with
      | nil => simp [hP, ih hP]
      | cons l1 rest => rw [hP] at h; simp at h

/-- Helper: splitting a concatenation emits the left side's complete
lines, then splits its trailing part glued to the right side. -/
theorem splitNl_shift (x y : List Char) :
    splitNl (x ++ y) = (splitParts x).1 ++ splitNl ((splitParts x).2 ++ y) := by
  induction x with
  | nil => simp [splitParts]
  | cons c cs ih =>
    by_cases hc : c = '\n'
    · subst hc
      simp [splitNl, splitParts, ih]
    · simp only [List.cons_append, splitNl, if_neg hc, splitParts,
        List.append_eq]
      cases hP : (splitParts cs).1 with
      | nil =>
        simp only [splitParts_nil_lines cs hP, List.nil_append]
        simp [splitNl, if_neg hc]
      | cons l1 rest =>
        rw [hP] at ih
        simp only [ih]
        simp

/-- Helper: the pipeStream loop is chunk-boundary independent — whatever
the chunking, it emits exactly the nonempty parts of the split of the
whole stream (with a newline-free carried buffer prepended). -/
theorem runPipe_eq (chunks : List (List Char)) :
    ∀ buf, '\n' ∉ buf →
      runPipe buf chunks =
        (splitNl (buf ++ chunks.flatten)).filter (fun l => l ≠ []) := by
  induction chunks with
  | nil =>
    intro buf hbuf
    simp only [runPipe, List.flatten_nil, List.append_nil]
    rw [splitNl_eq_single buf hbuf]
    by_cases h : buf = []
    · simp [h]
    · simp [h, List.filter]
  | cons chunk cs ih =>
    intro buf hbuf
    simp only [runPipe, List.flatten_cons]
    have hparts := splitNl_eq_parts (buf ++ chunk)
    have hdrop : (splitNl (buf ++ chunk)).dropLast =
        (splitParts (buf ++ chunk)).1 := by
      rw [hparts, List.dropLast_concat]
    have hlastd : (splitNl (buf ++ chunk)).getLastD [] =
        (splitParts (buf ++ chunk)).2 := by
      rw [hparts]
      simp
    rw [hdrop, hlastd, ih _ (splitParts_no_nl_last _), ← List.append_assoc,
      splitNl_shift (buf ++ chunk) cs.flatten, List.filter_append]

/-- Helper: joining the split of a sequence gives the sequence back. -/
theorem joinNl_splitNl (l : List Char) : joinNl (splitNl l) = l := by
  induction l with
  | nil => rfl
  | cons c cs ih =>
    by_cases hc : c = '\n'
    · subst hc
      simp only [splitNl, if_pos rfl]
      cases hS : splitNl cs with
      | nil => exact absurd hS (splitNl_ne_nil cs)
      | cons p ps =>
        rw [hS] at ih
        simp [joinNl, ih]
    · simp only [splitNl, if_neg hc]
      cases hS : splitNl cs with
      | nil => exact absurd hS (splitNl_ne_nil cs)
      | cons p ps =>
        rw [hS] at ih
        cases ps with
        | nil =>
          simp only [joinNl] at ih ⊢
          simp [ih]
        | cons q qs =>
          simp only [joinNl] at ih ⊢
          simp [ih]

/-- Helper: dropping a trailing empty part costs one newline in the
join. -/
theorem joinNl_concat_nil (L : List (List Char)) (hL : L ≠ []) :
    joinNl (L ++ [[]]) = joinNl L ++ ['\n'] := by
  induction L with
  | nil => exact absurd rfl hL
  | cons p ps ih =>
    cases hps : ps with
    | nil => simp [joinNl]
    | cons q qs =>
      subst hps
      have h2 := ih (by simp)
      simp only [List.cons_append, joinNl] at h2 ⊢
      simp [h2]

/-- C4 (counterexample): streamCommand drops blank lines — on the single
chunk "a\n\nb" it emits only the lines a and b, and no rejoining of the
emitted events reproduces the original bytes modulo one trailing
newline. -/
theorem stream_line_reassembly_cex :
    joinNl (runPipe [] [['a', '\n', '\n', 'b']]) ≠ ['a', '\n', '\n', 'b'] ∧
    ['a', '\n', '\n', 'b'] ≠
      joinNl (runPipe [] [['a', '\n', '\n', 'b']]) ++ ['\n'] ∧
    runPipe [] [['a', '\n', '\n', 'b']] = [['a'], ['b']] := by
  refine ⟨by decide, by decide, by decide⟩

/-- C4 (amended): whatever the chunk boundaries, the emitted line events
are exactly the nonempty lines of the byte stream in order (partial
trailing bytes are buffered across chunks and a leftover partial line is
flushed on end); when the stream has no empty interior line, joining the
events with newline reproduces the byte stream modulo a single trailing
newline. -/
theorem stream_line_reassembly (chunks : List (List Char)) :
    runPipe [] chunks =
      (splitNl chunks.flatten).filter (fun l => l ≠ []) ∧
    ((∀ p ∈ (splitNl chunks.flatten).dropLast, p ≠ []) →
      (chunks.flatten = joinNl (runPipe [] chunks) ∨
       chunks.flatten = joinNl (runPipe [] chunks) ++ ['\n'])) := by
  have h0 : runPipe [] chunks =
      (splitNl chunks.flatten).filter (fun l => l ≠ []) := by
    have := runPipe_eq chunks [] (by simp)
    simpa using this
  refine ⟨h0, ?_⟩
  intro hne
  have hparts := splitNl_eq_parts chunks.flatten
  have hLne : ∀ p ∈ (splitParts chunks.flatten).1, p ≠ [] := by
    intro p hp
    apply hne
    rw [hparts, List.dropLast_concat]
    exact hp
  have hfL : ((splitParts chunks.flatten).1).filter (fun l => l ≠ []) =
      (splitParts chunks.flatten).1 := by
    rw [List.filter_eq_self]
    intro p hp
    simpa using hLne p hp
  by_cases hb : (splitParts chunks.flatten).2 = []
  · by_cases hL : (splitParts chunks.flatten).1 = []
    · left
      have hflat : chunks.flatten = [] := by
        have := joinNl_splitNl chunks.flatten
        rw [hparts, hL, hb] at this
        simpa [joinNl] using this.symm
      rw [h0, hparts, hL, hb, hflat]
      simp [joinNl, List.filter]
    · right
      have hfilter : (splitNl chunks.flatten).filter (fun l => l ≠ []) =
          (splitParts chunks.flatten).1 := by
        rw [hparts, List.filter_append, hfL, hb]
        simp [List.filter]
      have hjoin : chunks.flatten =
          joinNl ((splitParts chunks.flatten).1) ++ ['\n'] := by
        conv_lhs => rw [← joinNl_splitNl chunks.flatten]
        rw [hparts, hb, joinNl_concat_nil _ hL]
      rw [h0, hfilter]
      exact hjoin
  · left
    have hfilter : (splitNl chunks.flatten).filter (fun l => l ≠ []) =
        splitNl chunks.flatten := by
      rw [hparts, List.filter_append, hfL]
      simp [List.filter, hb]
    rw [h0, hfilter, joinNl_splitNl]

/-- C4 (witness): the stream "a\nbc\n" delivered as chunks "a\nb" and
"c\n" — a partial line buffered across the chunk boundary and a trailing
newline — reassembles to the original bytes plus nothing but that
trailing newline. -/
theorem stream_line_reassembly_witness :
    runPipe [] [['a', '\n', 'b'], ['c', '\n']] =
      (splitNl [['a', '\n', 'b'], ['c', '\n']].flatten).filter
        (fun l => l ≠ []) ∧
    [['a', '\n', 'b'], ['c', '\n']].flatten =
      joinNl (runPipe [] [['a', '\n', 'b'], ['c', '\n']]) ++ ['\n'] := by
  have h := stream_line_reassembly [['a', '\n', 'b'], ['c', '\n']]
  refine ⟨h.1, ?_⟩
  rcases h.2 (by decide) with h2 | h2
  · exact absurd h2 (by decide)
  · exact h2
